import Mathlib

/-!
Verification of the rpc-controller bootstrap
(`pilot/cmd/rpc-controller/main.go`) and of the spec-described core
components (WorkQueue, ResourceWatcher cache, Reconciler, RecordCodec)
of the sofa-mesh rpc controller.

The bootstrap is embedded as a pure function over the outcomes of its
external collaborators (logging configuration, kubeconfig construction,
clientset constructors, the controller's `Run`), recording in a trace
which steps executed and with which arguments. Core components absent
from the bootstrap file are modelled from the specification.
-/

namespace RpcController

/-- The command-line flag values of the `run` command, one field per
package-level variable bound in `init` (`main.go` lines 46-60, 158-166). -/
structure Flags where
  masterURL : String
  kubeconfig : String
  corednsAddress : String
  healthPort : Nat
  etcdKeyFile : String
  etcdCertFile : String
  etcdCaCertile : String
  etcdEndpoints : String
deriving DecidableEq

/-- The default flag values registered in `init` (`main.go` lines 159-166):
every string flag defaults to the empty string, the health port to 12345. -/
def defaultFlags : Flags :=
  { masterURL := ""
    kubeconfig := ""
    corednsAddress := ""
    healthPort := 12345
    etcdKeyFile := ""
    etcdCertFile := ""
    etcdCaCertile := ""
    etcdEndpoints := "" }

/-- Splits a character list around each comma, the semantics of Go's
`strings.Split(s, ",")` at the call site in `main.go` line 101: the result
always has at least one element, and splitting the empty string yields a
single empty piece. -/
def splitCommaChars : List Char → List (List Char)
  | [] => [[]]
  | c :: cs =>
    if c = ',' then [] :: splitCommaChars cs
    else
      match splitCommaChars cs with
      | [] => [[c]]
      | g :: gs => (c :: g) :: gs

/-- Go's `strings.Split(s, ",")` on strings. -/
def stringsSplitComma (s : String) : List String :=
  (splitCommaChars s.data).map (fun cs => String.mk cs)

/-- Joins character-list pieces with a comma between consecutive pieces:
the inverse direction of `splitCommaChars`, used to state that the split
is exactly a split on the comma character. -/
def joinCommaChars : List (List Char) → List Char
  | [] => []
  | [g] => g
  | g :: gs => g ++ ',' :: joinCommaChars gs

/-- The `controller.Config` structure as populated by the `run` command
(`main.go` lines 96-101). -/
structure Config where
  CoreDnsAddress : String
  EtcdKeyFile : String
  EtcdCertFile : String
  EtcdCaCertFile : String
  EtcdEndpoints : List String
deriving DecidableEq

/-- The assembly of `controller.Config` from the flag values
(`main.go` lines 96-101): every field is the flag value unchanged except
the endpoints, which are the comma-split of the endpoints flag. -/
def mkConfig (fl : Flags) : Config :=
  { CoreDnsAddress := fl.corednsAddress
    EtcdKeyFile := fl.etcdKeyFile
    EtcdCertFile := fl.etcdCertFile
    EtcdCaCertFile := fl.etcdCaCertile
    EtcdEndpoints := stringsSplitComma fl.etcdEndpoints }

/-- Outcomes of the external calls the `run` command makes, in program
order; `none` is a nil error, `some e` an error with message `e`. The two
`log.Configure` calls (lines 76 and 86) are distinct effectful calls and
get distinct outcomes. -/
structure Deps where
  logConfigure1 : Option String
  logConfigure2 : Option String
  buildKubeconfig : Option String
  kubeNewForConfig : Option String
  watcherNewForConfig : Option String
  controllerRun : Option String
deriving DecidableEq

/-- Collaborator outcomes in which every external call succeeds. -/
def allOkDeps : Deps :=
  { logConfigure1 := none
    logConfigure2 := none
    buildKubeconfig := none
    kubeNewForConfig := none
    watcherNewForConfig := none
    controllerRun := none }

/-- `time.Second * 30` in nanoseconds, the resync period passed to both
shared informer factories (`main.go` lines 109 and 117). -/
def resyncNanos : Nat := 30 * 1000000000

/-- Execution trace of one invocation of the `run` command: whether the
health HTTP server goroutine was spawned, the resync period each informer
factory was constructed with (when reached), the `Config` value built and
the one passed to `controller.NewController` (when reached), the worker
count passed to `controller.Run` (when reached), and the error the `RunE`
function returned (`none` is a nil return). -/
structure RunTrace where
  healthServerStarted : Bool
  kubeResyncNanos : Option Nat
  watcherResyncNanos : Option Nat
  configBuilt : Option Config
  controllerConfig : Option Config
  runWorkers : Option Nat
  result : Option String
deriving DecidableEq

/-- The body of `proxyCmd.RunE` (`main.go` lines 75-131) as a pure
function from flag values and collaborator outcomes to an execution
trace, following the source's statement order: first `log.Configure`,
spawn of the health server, second `log.Configure`,
`clientcmd.BuildConfigFromFlags`, assembly of `controller.Config`,
`kubernetes.NewForConfig`, the kube informer factory (30s resync),
`clientset.NewForConfig`, the watcher informer factory (30s resync),
`controller.NewController(..., config, ...)`, and `controller.Run(2)`. -/
def proxyCmdRunE (fl : Flags) (d : Deps) : RunTrace :=
  match d.logConfigure1 with
  | some e =>
    { healthServerStarted := false, kubeResyncNanos := none
      watcherResyncNanos := none, configBuilt := none
      controllerConfig := none, runWorkers := none, result := some e }
  | none =>
    match d.logConfigure2 with
    | some e =>
      { healthServerStarted := true, kubeResyncNanos := none
        watcherResyncNanos := none, configBuilt := none
        controllerConfig := none, runWorkers := none, result := some e }
    | none =>
      match d.buildKubeconfig with
      | some e =>
        { healthServerStarted := true, kubeResyncNanos := none
          watcherResyncNanos := none, configBuilt := none
          controllerConfig := none, runWorkers := none, result := some e }
      | none =>
        match d.kubeNewForConfig with
        | some e =>
          { healthServerStarted := true, kubeResyncNanos := none
            watcherResyncNanos := none, configBuilt := some (mkConfig fl)
            controllerConfig := none, runWorkers := none, result := some e }
        | none =>
          match d.watcherNewForConfig with
          | some e =>
            { healthServerStarted := true
              kubeResyncNanos := some resyncNanos
              watcherResyncNanos := none, configBuilt := some (mkConfig fl)
              controllerConfig := none, runWorkers := none
              result := some e }
          | none =>
            { healthServerStarted := true
              kubeResyncNanos := some resyncNanos
              watcherResyncNanos := some resyncNanos
              configBuilt := some (mkConfig fl)
              controllerConfig := some (mkConfig fl)
              runWorkers := some 2
              result := d.controllerRun }

/-- The exit behaviour of `main` (`main.go` lines 151-156): a non-nil
error from `Execute` leads to `os.Exit(-1)`, a nil error to a normal
return (`none`). -/
def mainExitCode (r : Option String) : Option Int :=
  r.map (fun _ => -1)

/-- An HTTP request as seen by the health mux: only the path matters. -/
structure HTTPRequest where
  path : String
deriving DecidableEq

/-- An HTTP response: status code and body. -/
structure HTTPResponse where
  status : Nat
  body : String
deriving DecidableEq

/-- The handler registered for `/healthz` (`main.go` lines 138-141): it
ignores the request and all controller state, writes status 200 and the
body "ok". -/
def healthzHandler (_r : HTTPRequest) : HTTPResponse :=
  { status := 200, body := "ok" }

/-- The routing of the health mux (`main.go` lines 136-141): only the
path `/healthz` is registered; any other path is unrouted (`none`,
Go's mux would answer 404 from its default handler). -/
def healthMuxServe (r : HTTPRequest) : Option HTTPResponse :=
  if r.path = "/healthz" then some (healthzHandler r) else none

/-- Modelled from the spec: an RPC endpoint of an RpcServiceSpec, "each
with host/port/protocol" (spec section 3); this code lives in the
controller package, which is not part of the bootstrap file. -/
structure RpcEndpoint where
  host : String
  port : Nat
  protocol : String
deriving DecidableEq

/-- Modelled from the spec: the declared RpcService resource, "a unique
identifier (namespace+name), a set of named RPC endpoints" (spec
section 3). -/
structure RpcServiceSpec where
  ns : String
  name : String
  endpoints : List RpcEndpoint
deriving DecidableEq

/-- Modelled from the spec: the serialization of one endpoint, "eventual
store key `a.svc.zone.` holds encoded endpoint `10.0.0.1:9000`" (spec
section 8 scenario). -/
def encodeEndpoint (e : RpcEndpoint) : String :=
  e.host ++ ":" ++ toString e.port

/-- Modelled from the spec: the RecordCodec value encoding, a "pure
mapping between an RpcService's declared spec and the key/value pairs the
resolver expects" (spec section 2): the serialized endpoint set. -/
def recordCodecEncode (s : RpcServiceSpec) : String :=
  String.intercalate "," (s.endpoints.map encodeEndpoint)

/-- Modelled from the spec: one watch event for a fixed key, the
"(resource-key, event-kind) notifications for add/update/delete" of the
ResourceWatcher (spec section 2), carrying the declared spec for create
and update. -/
inductive WatchEvent where
  | create (s : RpcServiceSpec)
  | update (s : RpcServiceSpec)
  | deleteKey
deriving DecidableEq

/-- Modelled from the spec: the effect of one event on the watcher's
cached spec for the key: a create or update installs the event's spec, a
delete removes the entry, so that "`GetCached` always reflects the state
at-or-after the most recent event for that key" (spec section 4.1). -/
def applyEvent : Option RpcServiceSpec → WatchEvent → Option RpcServiceSpec
  | _, .create s => some s
  | _, .update s => some s
  | _, .deleteKey => none

/-- Modelled from the spec: the ResourceWatcher cache for the key after a
finite event sequence has been fully observed (the watcher has
stabilized), starting from an absent entry. -/
def watcherCache (es : List WatchEvent) : Option RpcServiceSpec :=
  es.foldl applyEvent none

/-- Modelled from the spec: one reconciliation of the key (spec
section 4.3): resolve the cached spec, load the external value, then
create/update when the spec is present and the external value absent or
stale, no-op when it matches, delete when the spec is absent. Returns the
store value for the key after the attempt, and whether a store write
(Put or Delete) was issued. -/
def reconcileStep (cached : Option RpcServiceSpec) (external : Option String) :
    Option String × Bool :=
  match cached, external with
  | some s, some v =>
    if v = recordCodecEncode s then (some v, false)
    else (some (recordCodecEncode s), true)
  | some s, none => (some (recordCodecEncode s), true)
  | none, some _ => (none, true)
  | none, none => (none, false)

/-- Modelled from the spec: the WorkQueue's internal state (spec
sections 4.2 and 9), "key-set membership guarded by a mutex": the ordered
queue of deliverable keys, the dirty set of keys needing (re)processing,
and the processing set of keys currently checked out between `Get` and
`Done`. The two sets are kept as duplicate-free lists. -/
structure WorkQueueState where
  queue : List Nat
  dirty : List Nat
  processing : List Nat
deriving DecidableEq

/-- Modelled from the spec: `Add(key)` (spec section 4.2): a key already
dirty is absorbed; otherwise it is marked dirty, and appended to the
queue only when it is not currently being processed — "a second `Add` for
the same key while it is being processed marks it dirty". -/
def wqAdd (k : Nat) (q : WorkQueueState) : WorkQueueState :=
  if k ∈ q.dirty then q
  else
    { queue := if k ∈ q.processing then q.queue else q.queue ++ [k]
      dirty := q.dirty ++ [k]
      processing := q.processing }

/-- Modelled from the spec: `Get()` (spec section 4.2): checks out the
head of the queue, moving it from the dirty set into the processing
set; `none` when the queue is empty. -/
def wqGet (q : WorkQueueState) : Option Nat × WorkQueueState :=
  match q.queue with
  | [] => (none, q)
  | k :: rest =>
    (some k,
     { queue := rest
       dirty := q.dirty.erase k
       processing := q.processing ++ [k] })

/-- Modelled from the spec: `Done(key)` (spec section 4.2): releases the
key from the processing set and, when it was re-added while in flight
(it is dirty), re-queues it — "guarantees it is re-delivered exactly once
after the current processing finishes". -/
def wqDone (k : Nat) (q : WorkQueueState) : WorkQueueState :=
  { queue := if k ∈ q.dirty then q.queue ++ [k] else q.queue
    dirty := q.dirty
    processing := q.processing.erase k }

/-! Helper lemmas about the comma split. -/

lemma splitCommaChars_ne_nil (l : List Char) : splitCommaChars l ≠ [] := by
  induction l with
  | nil => simp [splitCommaChars]
  | cons c cs ih =>
    rw [splitCommaChars]
    by_cases hc : c = ','
    · simp [hc]
    · rw [if_neg hc]
      cases hcs : splitCommaChars cs with
      | nil => simp
      | cons g gs => simp

lemma stringsSplitComma_ne_nil (s : String) : stringsSplitComma s ≠ [] := by
  unfold stringsSplitComma
  simp [splitCommaChars_ne_nil]

lemma joinCommaChars_splitCommaChars (l : List Char) :
    joinCommaChars (splitCommaChars l) = l := by
  induction l with
  | nil => rfl
  | cons c cs ih =>
    rw [splitCommaChars]
    by_cases hc : c = ','
    · subst hc
      rw [if_pos rfl]
      cases hcs : splitCommaChars cs with
      | nil => exact absurd hcs (splitCommaChars_ne_nil cs)
      | cons g gs =>
        show ',' :: joinCommaChars (g :: gs) = ',' :: cs
        rw [← hcs, ih]
    · rw [if_neg hc]
      cases hcs : splitCommaChars cs with
      | nil => exact absurd hcs (splitCommaChars_ne_nil cs)
      | cons g gs =>
        cases gs with
        | nil =>
          show c :: g = c :: cs
          have : joinCommaChars [g] = cs := by rw [← hcs, ih]
          simpa [joinCommaChars] using this
        | cons g2 gs2 =>
          show (c :: g) ++ ',' :: joinCommaChars (g2 :: gs2) = c :: cs
          have : joinCommaChars (g :: g2 :: gs2) = cs := by rw [← hcs, ih]
          rw [List.cons_append]
          rw [show g ++ ',' :: joinCommaChars (g2 :: gs2) =
                joinCommaChars (g :: g2 :: gs2) from rfl, this]

lemma splitCommaChars_no_comma (l : List Char) :
    ∀ g ∈ splitCommaChars l, ',' ∉ g := by
  induction l with
  | nil =>
    intro g hg
    simp [splitCommaChars] at hg
    simp [hg]
  | cons c cs ih =>
    intro g hg
    rw [splitCommaChars] at hg
    by_cases hc : c = ','
    · rw [if_pos hc] at hg
      rcases List.mem_cons.mp hg with h | h
      · simp [h]
      · exact ih g h
    · rw [if_neg hc] at hg
      cases hcs : splitCommaChars cs with
      | nil => exact absurd hcs (splitCommaChars_ne_nil cs)
      | cons g0 gs =>
        rw [hcs] at hg
        rcases List.mem_cons.mp hg with h | h
        · subst h
          intro hmem
          rcases List.mem_cons.mp hmem with h1 | h1
          · exact hc h1.symm
          · exact ih g0 (hcs ▸ List.mem_cons_self g0 gs) h1
        · exact ih g (hcs ▸ List.mem_cons_of_mem g0 h)

lemma joinCommaChars_stringsSplitComma (s : String) :
    joinCommaChars ((stringsSplitComma s).map String.data) = s.data := by
  unfold stringsSplitComma
  rw [List.map_map]
  have : (String.data ∘ fun cs => String.mk cs) = fun cs => cs := rfl
  rw [this, List.map_id']
  exact joinCommaChars_splitCommaChars s.data

/-! Helper lemmas about the run command's trace. -/

lemma proxyCmdRunE_cases (fl : Flags) (d : Deps) :
    ((proxyCmdRunE fl d).controllerConfig = none ∧
     (proxyCmdRunE fl d).runWorkers = none ∧
     (proxyCmdRunE fl d).result ≠ none) ∨
    proxyCmdRunE fl d =
      { healthServerStarted := true
        kubeResyncNanos := some resyncNanos
        watcherResyncNanos := some resyncNanos
        configBuilt := some (mkConfig fl)
        controllerConfig := some (mkConfig fl)
        runWorkers := some 2
        result := d.controllerRun } := by
  rcases d with ⟨l1, l2, bk, kn, wn, cr⟩
  cases l1 <;> cases l2 <;> cases bk <;> cases kn <;> cases wn <;>
    simp [proxyCmdRunE]

/-- C4. Worker pool size: whenever the run command reaches the point of
starting the controller (a `Config` was passed to `NewController`), it
invokes the controller's `Run` with worker concurrency exactly 2. -/
theorem run_workers_two (fl : Flags) (d : Deps) (cfg : Config)
    (h : (proxyCmdRunE fl d).controllerConfig = some cfg) :
    (proxyCmdRunE fl d).runWorkers = some 2 := by
  rcases proxyCmdRunE_cases fl d with ⟨hc, _, _⟩ | heq
  · rw [hc] at h; exact absurd h (by simp)
  · rw [heq]

/-- C4 witness at the default flags with all collaborators succeeding. -/
theorem run_workers_two_witness :
    (proxyCmdRunE defaultFlags allOkDeps).controllerConfig =
      some (mkConfig defaultFlags) ∧
    (proxyCmdRunE defaultFlags allOkDeps).runWorkers = some 2 :=
  ⟨rfl, run_workers_two defaultFlags allOkDeps (mkConfig defaultFlags) rfl⟩

/-- C5. Store configuration assembly: the `Config` passed to the
controller constructor carries the key file, certificate file, CA
certificate file and coredns flag values unchanged, and its endpoint list
is exactly the etcdendpoints flag split on the comma character: the
comma-join of the pieces restores the flag string and no piece contains a
comma. -/
theorem config_assembly (fl : Flags) (d : Deps) (cfg : Config)
    (h : (proxyCmdRunE fl d).controllerConfig = some cfg) :
    cfg.CoreDnsAddress = fl.corednsAddress ∧
    cfg.EtcdKeyFile = fl.etcdKeyFile ∧
    cfg.EtcdCertFile = fl.etcdCertFile ∧
    cfg.EtcdCaCertFile = fl.etcdCaCertile ∧
    cfg.EtcdEndpoints = stringsSplitComma fl.etcdEndpoints ∧
    joinCommaChars (cfg.EtcdEndpoints.map String.data) =
      fl.etcdEndpoints.data ∧
    ∀ x ∈ cfg.EtcdEndpoints, ',' ∉ x.data := by
  have hcfg : cfg = mkConfig fl := by
    rcases proxyCmdRunE_cases fl d with ⟨hc, _, _⟩ | heq
    · rw [hc] at h; exact absurd h (by simp)
    · rw [heq] at h; exact (Option.some_inj.mp h).symm
  subst hcfg
  refine ⟨rfl, rfl, rfl, rfl, rfl, joinCommaChars_stringsSplitComma _, ?_⟩
  intro x hx hmem
  unfold mkConfig stringsSplitComma at hx
  rcases List.mem_map.mp hx with ⟨g, hg, hgx⟩
  exact splitCommaChars_no_comma _ g hg (by simpa [← hgx] using hmem)

/-- C5 witness at concrete flags whose endpoint flag holds two
comma-separated addresses. -/
theorem config_assembly_witness :
    (proxyCmdRunE { defaultFlags with etcdEndpoints := "10.0.0.1:2379,10.0.0.2:2379" } allOkDeps).controllerConfig =
      some (mkConfig { defaultFlags with etcdEndpoints := "10.0.0.1:2379,10.0.0.2:2379" }) ∧
    (mkConfig { defaultFlags with etcdEndpoints := "10.0.0.1:2379,10.0.0.2:2379" }).EtcdEndpoints =
      stringsSplitComma "10.0.0.1:2379,10.0.0.2:2379" :=
  ⟨rfl,
   (config_assembly { defaultFlags with etcdEndpoints := "10.0.0.1:2379,10.0.0.2:2379" }
      allOkDeps _ rfl).2.2.2.2.1⟩

/-- C6. Fatal-error propagation: the run command returns nil exactly when
the two logging configurations, the kubeconfig construction, both
clientset constructions and the controller's `Run` all succeed, and
`main` exits with status -1 exactly when the returned error is
non-nil. -/
theorem run_error_iff (fl : Flags) (d : Deps) :
    ((proxyCmdRunE fl d).result = none ↔
      d.logConfigure1 = none ∧ d.logConfigure2 = none ∧
      d.buildKubeconfig = none ∧ d.kubeNewForConfig = none ∧
      d.watcherNewForConfig = none ∧ d.controllerRun = none) ∧
    (mainExitCode (proxyCmdRunE fl d).result = some (-1) ↔
      (proxyCmdRunE fl d).result ≠ none) := by
  constructor
  · rcases d with ⟨l1, l2, bk, kn, wn, cr⟩
    cases l1 <;> cases l2 <;> cases bk <;> cases kn <;> cases wn <;> cases cr <;>
      simp [proxyCmdRunE]
  · cases hr : (proxyCmdRunE fl d).result <;> simp [mainExitCode, hr]

/-- C8. Periodic resync: on every completed run both informer factories
were constructed with resync period exactly 30 seconds
(30000000000 nanoseconds), which is non-zero. -/
theorem resync_thirty_seconds (fl : Flags) (d : Deps)
    (h : (proxyCmdRunE fl d).result = none) :
    (proxyCmdRunE fl d).kubeResyncNanos = some resyncNanos ∧
    (proxyCmdRunE fl d).watcherResyncNanos = some resyncNanos ∧
    resyncNanos = 30 * 1000000000 ∧ resyncNanos ≠ 0 := by
  rcases proxyCmdRunE_cases fl d with ⟨_, _, hr⟩ | heq
  · exact absurd h hr
  · rw [heq]
    exact ⟨rfl, rfl, rfl, by decide⟩

/-- C8 witness at the default flags with all collaborators succeeding. -/
theorem resync_thirty_seconds_witness :
    (proxyCmdRunE defaultFlags allOkDeps).result = none ∧
    (proxyCmdRunE defaultFlags allOkDeps).kubeResyncNanos = some resyncNanos ∧
    (proxyCmdRunE defaultFlags allOkDeps).watcherResyncNanos = some resyncNanos :=
  ⟨rfl,
   (resync_thirty_seconds defaultFlags allOkDeps rfl).1,
   (resync_thirty_seconds defaultFlags allOkDeps rfl).2.1⟩

/-- C2 counterexample. With every certificate flag left empty (missing
certificate configuration) and the endpoints flag empty, and all external
calls succeeding, the run command does not fail at startup: the
controller is constructed, `Run(2)` is invoked, and the command returns
nil — refuting the claim that such an invocation fails before the
controller is constructed and run. -/
theorem startup_validation_counterexample :
    (defaultFlags.etcdKeyFile = "" ∧ defaultFlags.etcdCertFile = "" ∧
     defaultFlags.etcdCaCertile = "" ∧ defaultFlags.etcdEndpoints = "") ∧
    (proxyCmdRunE defaultFlags allOkDeps).controllerConfig =
      some (mkConfig defaultFlags) ∧
    (proxyCmdRunE defaultFlags allOkDeps).runWorkers = some 2 ∧
    (proxyCmdRunE defaultFlags allOkDeps).result = none :=
  ⟨⟨rfl, rfl, rfl, rfl⟩, rfl, rfl, rfl⟩

/-- C2 amended. The run command performs no certificate or endpoint
validation before constructing the controller: whatever the flag values,
once logging, kubeconfig and both clientset constructions succeed, the
controller is constructed with the assembled config and run with 2
workers, the endpoint list is never empty, and the only remaining error
source is the controller's `Run` itself, after construction. -/
theorem startup_no_validation (fl : Flags) (d : Deps)
    (h1 : d.logConfigure1 = none) (h2 : d.logConfigure2 = none)
    (h3 : d.buildKubeconfig = none) (h4 : d.kubeNewForConfig = none)
    (h5 : d.watcherNewForConfig = none) :
    (proxyCmdRunE fl d).controllerConfig = some (mkConfig fl) ∧
    (proxyCmdRunE fl d).runWorkers = some 2 ∧
    (mkConfig fl).EtcdEndpoints ≠ [] ∧
    (proxyCmdRunE fl d).result = d.controllerRun := by
  rcases d with ⟨l1, l2, bk, kn, wn, cr⟩
  cases h1; cases h2; cases h3; cases h4; cases h5
  exact ⟨rfl, rfl, stringsSplitComma_ne_nil fl.etcdEndpoints, rfl⟩

/-- C2 amended-claim witness at flags carrying certificate paths. -/
theorem startup_no_validation_witness :
    (allOkDeps.logConfigure1 = none ∧ allOkDeps.logConfigure2 = none ∧
     allOkDeps.buildKubeconfig = none ∧ allOkDeps.kubeNewForConfig = none ∧
     allOkDeps.watcherNewForConfig = none) ∧
    ((proxyCmdRunE { defaultFlags with etcdCertFile := "/certs/client.crt" } allOkDeps).controllerConfig =
       some (mkConfig { defaultFlags with etcdCertFile := "/certs/client.crt" }) ∧
     (proxyCmdRunE { defaultFlags with etcdCertFile := "/certs/client.crt" } allOkDeps).runWorkers = some 2 ∧
     (mkConfig { defaultFlags with etcdCertFile := "/certs/client.crt" }).EtcdEndpoints ≠ [] ∧
     (proxyCmdRunE { defaultFlags with etcdCertFile := "/certs/client.crt" } allOkDeps).result =
       allOkDeps.controllerRun) :=
  ⟨⟨rfl, rfl, rfl, rfl, rfl⟩,
   startup_no_validation { defaultFlags with etcdCertFile := "/certs/client.crt" }
     allOkDeps rfl rfl rfl rfl rfl⟩

/-- C7. Liveness probe: once the run command has reached the point of
starting the controller's main loop, the health server goroutine has been
spawned, and the mux answers every request for the path /healthz with
status 200 and body "ok". -/
theorem healthz_after_main_loop (fl : Flags) (d : Deps) (r : HTTPRequest)
    (hrun : (proxyCmdRunE fl d).runWorkers ≠ none)
    (hpath : r.path = "/healthz") :
    (proxyCmdRunE fl d).healthServerStarted = true ∧
    healthMuxServe r = some { status := 200, body := "ok" } := by
  constructor
  · rcases proxyCmdRunE_cases fl d with ⟨_, hw, _⟩ | heq
    · exact absurd hw hrun
    · rw [heq]
  · rw [healthMuxServe, if_pos hpath]
    rfl

/-- C7 witness at the default flags with all collaborators succeeding and
a concrete /healthz request. -/
theorem healthz_after_main_loop_witness :
    ((proxyCmdRunE defaultFlags allOkDeps).runWorkers ≠ none ∧
     HTTPRequest.path { path := "/healthz" } = "/healthz") ∧
    ((proxyCmdRunE defaultFlags allOkDeps).healthServerStarted = true ∧
     healthMuxServe { path := "/healthz" } = some { status := 200, body := "ok" }) :=
  ⟨⟨by simp [proxyCmdRunE, defaultFlags, allOkDeps], rfl⟩,
   healthz_after_main_loop defaultFlags allOkDeps { path := "/healthz" }
     (by simp [proxyCmdRunE, defaultFlags, allOkDeps]) rfl⟩

/-- C9. The /healthz handler is unconditional: it maps every request to
status 200 and body "ok", and its response does not depend on the request
or on any controller state (the handler takes no state at all). -/
theorem healthz_unconditional (r r' : HTTPRequest) :
    healthzHandler r = { status := 200, body := "ok" } ∧
    healthzHandler r = healthzHandler r' :=
  ⟨rfl, rfl⟩

/-- C10. When the etcdendpoints flag is the empty string, the
`EtcdEndpoints` field of the `Config` passed to the controller is the
one-element list containing the empty string — never the empty list. -/
theorem default_endpoints_singleton_empty (fl : Flags) (d : Deps)
    (cfg : Config) (hfl : fl.etcdEndpoints = "")
    (h : (proxyCmdRunE fl d).controllerConfig = some cfg) :
    cfg.EtcdEndpoints = [""] ∧ cfg.EtcdEndpoints ≠ [] := by
  have hcfg : cfg = mkConfig fl := by
    rcases proxyCmdRunE_cases fl d with ⟨hc, _, _⟩ | heq
    · rw [hc] at h; exact absurd h (by simp)
    · rw [heq] at h; exact (Option.some_inj.mp h).symm
  subst hcfg
  have he : (mkConfig fl).EtcdEndpoints = [""] := by
    show stringsSplitComma fl.etcdEndpoints = [""]
    rw [hfl]
    rfl
  exact ⟨he, by rw [he]; simp⟩

/-- C10 witness: the default flags leave etcdendpoints empty, all
collaborators succeed, and the config passed to the controller holds the
one-element endpoint list containing the empty string. -/
theorem default_endpoints_witness :
    (defaultFlags.etcdEndpoints = "" ∧
     (proxyCmdRunE defaultFlags allOkDeps).controllerConfig =
       some (mkConfig defaultFlags)) ∧
    ((mkConfig defaultFlags).EtcdEndpoints = [""] ∧
     (mkConfig defaultFlags).EtcdEndpoints ≠ []) :=
  ⟨⟨rfl, rfl⟩,
   default_endpoints_singleton_empty defaultFlags allOkDeps
     (mkConfig defaultFlags) rfl rfl⟩

/-! Helper lemmas about the watcher cache and the reconciler. -/

lemma applyEvent_ignores_state (a b : Option RpcServiceSpec) (e : WatchEvent) :
    applyEvent a e = applyEvent b e := by
  cases e <;> rfl

lemma foldl_applyEvent_getLast (es : List WatchEvent) :
    ∀ e : WatchEvent, es.getLast? = some e →
      ∀ a : Option RpcServiceSpec, List.foldl applyEvent a es = applyEvent none e := by
  induction es with
  | nil => intro e h a; simp at h
  | cons x xs ih =>
    intro e h a
    cases xs with
    | nil =>
      simp at h
      subst h
      rw [List.foldl_cons, List.foldl_nil]
      exact applyEvent_ignores_state a none x
    | cons y ys =>
      rw [List.foldl_cons]
      exact ih e (by rw [← h]; exact List.getLast?_cons_cons.symm) _

lemma watcherCache_getLast (es : List WatchEvent) (e : WatchEvent)
    (h : es.getLast? = some e) : watcherCache es = applyEvent none e :=
  foldl_applyEvent_getLast es e h none

lemma reconcileStep_fst_some (s : RpcServiceSpec) (ext : Option String) :
    (reconcileStep (some s) ext).1 = some (recordCodecEncode s) := by
  cases ext with
  | none => rfl
  | some v =>
    rw [reconcileStep]
    by_cases hv : v = recordCodecEncode s
    · rw [if_pos hv, hv]
    · rw [if_neg hv]

lemma reconcileStep_fst_none (ext : Option String) :
    (reconcileStep none ext).1 = none := by
  cases ext <;> rfl

/-- C1. Convergence: for every finite event sequence on a key, once the
watcher has stabilized (the cache reflects the whole sequence) and the
queue has drained (a reconciliation ran against that cache), the store's
value for the key is the RecordCodec encoding of the last event's spec
when that event was a create or update, and the key is absent when the
last event was a delete — whatever value the store held before. -/
theorem convergence_after_drain (es : List WatchEvent)
    (store0 : Option String) (e : WatchEvent) (h : es.getLast? = some e) :
    (∀ s, e = WatchEvent.create s ∨ e = WatchEvent.update s →
      (reconcileStep (watcherCache es) store0).1 =
        some (recordCodecEncode s)) ∧
    (e = WatchEvent.deleteKey →
      (reconcileStep (watcherCache es) store0).1 = none) := by
  have hc : watcherCache es = applyEvent none e := watcherCache_getLast es e h
  constructor
  · rintro s (rfl | rfl) <;> rw [hc] <;> exact reconcileStep_fst_some s store0
  · rintro rfl
    rw [hc]
    exact reconcileStep_fst_none store0

/-- C1 witness: a create followed by an update leaves the store holding
the encoding of the updated spec, here "10.0.0.1:9001". -/
theorem convergence_after_drain_witness :
    (List.getLast? [WatchEvent.create ⟨"default", "svc-a", [⟨"10.0.0.1", 9000, "tcp"⟩]⟩,
        WatchEvent.update ⟨"default", "svc-a", [⟨"10.0.0.1", 9001, "tcp"⟩]⟩] =
      some (WatchEvent.update ⟨"default", "svc-a", [⟨"10.0.0.1", 9001, "tcp"⟩]⟩)) ∧
    (reconcileStep
        (watcherCache [WatchEvent.create ⟨"default", "svc-a", [⟨"10.0.0.1", 9000, "tcp"⟩]⟩,
          WatchEvent.update ⟨"default", "svc-a", [⟨"10.0.0.1", 9001, "tcp"⟩]⟩]) none).1 =
      some (recordCodecEncode ⟨"default", "svc-a", [⟨"10.0.0.1", 9001, "tcp"⟩]⟩) :=
  ⟨rfl,
   (convergence_after_drain
      [WatchEvent.create ⟨"default", "svc-a", [⟨"10.0.0.1", 9000, "tcp"⟩]⟩,
       WatchEvent.update ⟨"default", "svc-a", [⟨"10.0.0.1", 9001, "tcp"⟩]⟩]
      none
      (WatchEvent.update ⟨"default", "svc-a", [⟨"10.0.0.1", 9001, "tcp"⟩]⟩)
      rfl).1
     ⟨"default", "svc-a", [⟨"10.0.0.1", 9001, "tcp"⟩]⟩ (Or.inr rfl)⟩

/-! Helper lemmas about the work queue. -/

lemma wqAdd_absorbed (k : Nat) (q : WorkQueueState) (h : k ∈ q.dirty) :
    wqAdd k q = q := by
  rw [wqAdd, if_pos h]

lemma wqAdd_iterate_absorbed (k : Nat) (q : WorkQueueState) (h : k ∈ q.dirty) :
    ∀ n, (wqAdd k)^[n] q = q := by
  intro n
  induction n with
  | zero => rfl
  | succ m ih => rw [Function.iterate_succ_apply, wqAdd_absorbed k q h, ih]

lemma wqAdd_in_flight (k : Nat) (q : WorkQueueState)
    (hp : k ∈ q.processing) (hd : k ∉ q.dirty) :
    wqAdd k q = { queue := q.queue, dirty := q.dirty ++ [k],
                  processing := q.processing } := by
  rw [wqAdd, if_neg hd, if_pos hp]

/-- C3. Queue dedup: while a key is checked out by a worker (it is in the
processing set, not dirty, not in the queue), any number n ≥ 1 of Add
calls for it leaves the queue unchanged — no delivery happens during the
current processing — and after Done the key sits in the queue exactly
once: one additional delivery, not n. -/
theorem workqueue_dedup (q : WorkQueueState) (k n : Nat) (hn : 1 ≤ n)
    (hp : k ∈ q.processing) (hd : k ∉ q.dirty)
    (hq : q.queue.count k = 0) :
    ((wqAdd k)^[n] q).queue = q.queue ∧
    ((wqDone k ((wqAdd k)^[n] q)).queue.count k = 1) := by
  obtain ⟨m, rfl⟩ : ∃ m, n = m + 1 := ⟨n - 1, (Nat.succ_pred_eq_of_pos hn).symm⟩
  have hstep : (wqAdd k)^[m + 1] q =
      { queue := q.queue, dirty := q.dirty ++ [k],
        processing := q.processing } := by
    rw [Function.iterate_succ_apply, wqAdd_in_flight k q hp hd]
    exact wqAdd_iterate_absorbed k _ (by simp) m
  rw [hstep]
  constructor
  · rfl
  · rw [wqDone]
    simp only [List.mem_append, List.mem_singleton, or_true, if_pos]
    rw [List.count_append]
    simp [hq]

/-- C3 witness: key 0 checked out, three Add calls while in flight, one
delivery after Done. -/
theorem workqueue_dedup_witness :
    (1 ≤ 3 ∧ 0 ∈ [0] ∧ 0 ∉ ([] : List Nat) ∧
     List.count 0 ([] : List Nat) = 0) ∧
    (((wqAdd 0)^[3] ⟨[], [], [0]⟩).queue = [] ∧
     ((wqDone 0 ((wqAdd 0)^[3] ⟨[], [], [0]⟩)).queue.count 0 = 1)) :=
  ⟨⟨by decide, by decide, by decide, by decide⟩,
   workqueue_dedup ⟨[], [], [0]⟩ 0 3 (by decide) (by decide) (by decide)
     (by decide)⟩

end RpcController
